import Mathlib

/-!
Verification of the weather statistics module (`weather.py`).

The module is a collection of pure functions over in-memory data:
temperature unit conversion, mean calculation, min/max lookup with a
last-occurrence tie-break, ISO-date formatting, a CSV-style loader, and
two summary-string builders.  Python floats are modelled as exact
rationals (`ℚ`); Python exceptions are modelled with `Except` /
`Option`; `find_min`/`find_max` returning the empty tuple `()` on empty
input is modelled as `Option.none` in the `ok` branch.
-/

set_option maxRecDepth 4000

namespace Weather

/-- Error kinds: `FormatError` for malformed values (Python `ValueError` /
`KeyError`), `EmptyInputError` for the mean of an empty sequence
(Python `statistics.StatisticsError`). -/
inductive WeatherError where
  | FormatError
  | EmptyInputError
deriving DecidableEq

/-- Decidable equality for `Except`, so that concrete results evaluate. -/
def exceptDecEq {ε α : Type} [DecidableEq ε] [DecidableEq α] :
    DecidableEq (Except ε α)
  | .error a, .error b =>
      match decEq a b with
      | isTrue h => isTrue (by rw [h])
      | isFalse h => isFalse (fun he => h (by injection he))
  | .error _, .ok _ => isFalse (fun he => by injection he)
  | .ok _, .error _ => isFalse (fun he => by injection he)
  | .ok a, .ok b =>
      match decEq a b with
      | isTrue h => isTrue (by rw [h])
      | isFalse h => isFalse (fun he => h (by injection he))

instance {ε α : Type} [DecidableEq ε] [DecidableEq α] :
    DecidableEq (Except ε α) := exceptDecEq

/-- A Python run-time value as it may appear in a weather-data list:
an integer, a float (modelled as an exact rational), or a string. -/
inductive PyVal where
  | int (n : ℤ)
  | float (q : ℚ)
  | str (s : String)
deriving DecidableEq

/-- Numeric value of a decimal digit character. -/
def digitVal (c : Char) : ℕ := c.toNat - 48

/-- Value of a list of decimal digit characters, most significant first. -/
def digitsVal (cs : List Char) : ℕ := cs.foldl (fun a c => 10 * a + digitVal c) 0

/-- Strip leading and trailing whitespace from a character list
(models Python's implicit `str.strip` in numeric conversion). -/
def stripChars (cs : List Char) : List Char :=
  ((cs.dropWhile Char.isWhitespace).reverse.dropWhile Char.isWhitespace).reverse

/-- Parse an unsigned decimal float: digits with an optional fractional
part (`"5"`, `"5."`, `"5.25"`, `".5"`). -/
def parseUnsignedFloat (cs : List Char) : Option ℚ :=
  let intPart := cs.takeWhile Char.isDigit
  let rest := cs.dropWhile Char.isDigit
  match rest with
  | [] => if intPart.isEmpty then none else some (digitsVal intPart : ℚ)
  | '.' :: rest2 =>
      let fracPart := rest2.takeWhile Char.isDigit
      let rest3 := rest2.dropWhile Char.isDigit
      if rest3.isEmpty then
        if intPart.isEmpty && fracPart.isEmpty then none
        else some ((digitsVal intPart : ℚ) +
                   (digitsVal fracPart : ℚ) / (10 ^ fracPart.length : ℕ))
      else none
  | _ => none

/-- Python `float(s)` on a string: strip whitespace, optional sign,
decimal digits with optional fractional part; `none` models `ValueError`. -/
def parsePyFloat (s : String) : Option ℚ :=
  match stripChars s.toList with
  | '-' :: cs => (parseUnsignedFloat cs).map (fun q => -q)
  | '+' :: cs => parseUnsignedFloat cs
  | cs => parseUnsignedFloat cs

/-- Python `int(s)` on a string: strip whitespace, optional sign, one or
more decimal digits; `none` models `ValueError`. -/
def parsePyInt (s : String) : Option ℤ :=
  let core : List Char → Option ℤ := fun cs =>
    if cs.isEmpty || !(cs.all Char.isDigit) then none else some (digitsVal cs : ℤ)
  match stripChars s.toList with
  | '-' :: cs => (core cs).map (fun n => -n)
  | '+' :: cs => core cs
  | cs => core cs

/-- Python `float(v)` applied to one element of a weather-data list. -/
def pyFloat : PyVal → Option ℚ
  | .int n => some (n : ℚ)
  | .float q => some q
  | .str s => parsePyFloat s

/-- The comprehension `[float(data_point) for data_point in weather_data]`:
all elements coerced to float, failing if any element is not coercible. -/
def coerceFloats : List PyVal → Option (List ℚ)
  | [] => some []
  | v :: t =>
      match pyFloat v, coerceFloats t with
      | some q, some qs => some (q :: qs)
      | _, _ => none

/-- Python `enumerate`, starting at index `n`. -/
def pyEnumFrom (n : ℕ) : List ℚ → List (ℕ × ℚ)
  | [] => []
  | q :: t => (n, q) :: pyEnumFrom (n + 1) t

/-- `max(index for index, item in enumerate(l) if item == m)`:
the greatest index at which `m` occurs in `l` (the generator is
non-empty at every call site; the fold's base `0` is then absorbed). -/
def lastIndexOf (l : List ℚ) (m : ℚ) : ℕ :=
  (((pyEnumFrom 0 l).filter (fun p => p.2 = m)).map Prod.fst).foldl max 0

/-- `find_min` from `weather.py`: coerce all elements to float, return
`()` (here `none`) on empty input, otherwise the minimum value paired
with the last index at which it occurs. -/
def find_min (weather_data : List PyVal) : Except WeatherError (Option (ℚ × ℕ)) :=
  match coerceFloats weather_data with
  | none => .error .FormatError
  | some [] => .ok none
  | some (q :: t) =>
      .ok (some (t.foldl min q, lastIndexOf (q :: t) (t.foldl min q)))

/-- `find_max` from `weather.py`: symmetric to `find_min` with the
maximum value, same last-occurrence index and empty sentinel. -/
def find_max (weather_data : List PyVal) : Except WeatherError (Option (ℚ × ℕ)) :=
  match coerceFloats weather_data with
  | none => .error .FormatError
  | some [] => .ok none
  | some (q :: t) =>
      .ok (some (t.foldl max q, lastIndexOf (q :: t) (t.foldl max q)))

/-- Sum of a list of rationals, as `statistics.mean`'s numerator. -/
def pySum (l : List ℚ) : ℚ := l.foldl (· + ·) 0

/-- `calculate_mean` from `weather.py`: coerce all elements to float,
then `statistics.mean`, which raises on an empty sequence. -/
def calculate_mean (weather_data : List PyVal) : Except WeatherError ℚ :=
  match coerceFloats weather_data with
  | none => .error .FormatError
  | some [] => .error .EmptyInputError
  | some (q :: t) => .ok (pySum (q :: t) / ((q :: t).length : ℚ))

/-- Round half to even to an integer (Python's `round` on exact values). -/
def pyRoundInt (q : ℚ) : ℤ :=
  if q - ⌊q⌋ < 1 / 2 then ⌊q⌋
  else if 1 / 2 < q - ⌊q⌋ then ⌊q⌋ + 1
  else if ⌊q⌋ % 2 = 0 then ⌊q⌋ else ⌊q⌋ + 1

/-- Python `round(x, 1)`: round half to even at one decimal place. -/
def pyRound1 (q : ℚ) : ℚ := (pyRoundInt (q * 10) : ℚ) / 10

/-- `convert_f_to_c` from `weather.py`:
`round(((float(temp_in_fahrenheit) - 32) * 5/9), 1)`. -/
def convert_f_to_c (temp_in_fahrenheit : ℚ) : ℚ :=
  pyRound1 ((temp_in_fahrenheit - 32) * 5 / 9)

/-- A proleptic Gregorian calendar date, as held by `datetime.date`. -/
structure PyDate where
  year : ℕ
  month : ℕ
  day : ℕ
deriving DecidableEq

/-- Gregorian leap-year rule. -/
def isLeapYear (y : ℕ) : Bool := y % 4 == 0 && (y % 100 != 0 || y % 400 == 0)

/-- Number of days in month `m` of year `y`. -/
def daysInMonth (y m : ℕ) : ℕ :=
  if m = 2 then (if isLeapYear y then 29 else 28)
  else if m = 4 ∨ m = 6 ∨ m = 9 ∨ m = 11 then 30
  else 31

/-- Days in year `y` strictly before month `m`. -/
def daysBeforeMonth (y m : ℕ) : ℕ :=
  (List.range (m - 1)).foldl (fun a i => a + daysInMonth y (i + 1)) 0

/-- `datetime.date.toordinal`: day count in the proleptic Gregorian
calendar, with 0001-01-01 as ordinal 1. -/
def toOrdinal (d : PyDate) : ℕ :=
  365 * (d.year - 1) + (d.year - 1) / 4 - (d.year - 1) / 100 + (d.year - 1) / 400
    + daysBeforeMonth d.year d.month + d.day

/-- `datetime.date.weekday`: 0 = Monday … 6 = Sunday. -/
def weekdayIndex (d : PyDate) : ℕ := (toOrdinal d + 6) % 7

/-- Locale-independent English weekday names, as CPython's `%A`. -/
def weekdayName : ℕ → String
  | 0 => "Monday"
  | 1 => "Tuesday"
  | 2 => "Wednesday"
  | 3 => "Thursday"
  | 4 => "Friday"
  | 5 => "Saturday"
  | 6 => "Sunday"
  | _ => ""

/-- Locale-independent English month names, as CPython's `%B`. -/
def monthName : ℕ → String
  | 1 => "January"
  | 2 => "February"
  | 3 => "March"
  | 4 => "April"
  | 5 => "May"
  | 6 => "June"
  | 7 => "July"
  | 8 => "August"
  | 9 => "September"
  | 10 => "October"
  | 11 => "November"
  | 12 => "December"
  | _ => ""

/-- `datetime.fromisoformat` restricted to the date-only form
`YYYY-MM-DD` used throughout this data set: four year digits, two month
digits, two day digits, validated against the calendar. -/
def parseIsoDate (s : String) : Option PyDate :=
  match s.toList with
  | [y1, y2, y3, y4, '-', m1, m2, '-', d1, d2] =>
      if ([y1, y2, y3, y4, m1, m2, d1, d2].all Char.isDigit) then
        let y := digitsVal [y1, y2, y3, y4]
        let m := digitsVal [m1, m2]
        let d := digitsVal [d1, d2]
        if 1 ≤ y ∧ 1 ≤ m ∧ m ≤ 12 ∧ 1 ≤ d ∧ d ≤ daysInMonth y m then
          some ⟨y, m, d⟩
        else none
      else none
  | _ => none

/-- Decimal string of a natural number (fuel-driven). -/
def natStrAux : ℕ → ℕ → String
  | 0, _ => ""
  | fuel + 1, n =>
      if n < 10 then String.singleton (Char.ofNat (48 + n))
      else natStrAux fuel (n / 10) ++ String.singleton (Char.ofNat (48 + n % 10))

/-- Decimal string of a natural number. -/
def natStr (n : ℕ) : String := natStrAux (n + 1) n

/-- Zero-padded two-digit field (`%d`). -/
def pad2 (n : ℕ) : String := if n < 10 then "0" ++ natStr n else natStr n

/-- Zero-padded four-digit field (`%Y`). -/
def pad4 (n : ℕ) : String :=
  if n < 10 then "000" ++ natStr n
  else if n < 100 then "00" ++ natStr n
  else if n < 1000 then "0" ++ natStr n
  else natStr n

/-- `strftime("%A %d %B %Y")` on a date. -/
def strftimeAdBY (d : PyDate) : String :=
  weekdayName (weekdayIndex d) ++ " " ++ pad2 d.day ++ " " ++
    monthName d.month ++ " " ++ pad4 d.year

/-- `convert_date` from `weather.py`: parse the ISO date string and
format it as `Weekday DD Month YYYY`; `none` models the `ValueError`
raised on an unparseable string. -/
def convert_date (iso_string : String) : Option String :=
  (parseIsoDate iso_string).map strftimeAdBY

/-- Digits-dot-digit rendering of `n` tenths: `128 ↦ "12.8"`. -/
def fmtTenths (n : ℕ) : String := natStr (n / 10) ++ "." ++ natStr (n % 10)

/-- Python `str` of a float that is an exact multiple of one tenth
(every float rendered by this program is, being `round(_, 1)` output). -/
def formatFloat1 (q : ℚ) : String :=
  if q < 0 then "-" ++ fmtTenths (Int.natAbs ⌊-q * 10⌋)
  else fmtTenths (Int.toNat ⌊q * 10⌋)

/-- `format_temperature` from `weather.py`: append the degree suffix. -/
def format_temperature (temp : ℚ) : String := formatFloat1 temp ++ "°C"

/-- One row of weather data: date string, minimum and maximum
temperature in integer Fahrenheit (the spec's `DayRecord`). -/
structure DayRecord where
  date : String
  min_temp : ℤ
  max_temp : ℤ
deriving DecidableEq

/-- Forget which exception was raised; any exception aborts the caller. -/
def exceptToOption {α : Type} : Except WeatherError α → Option α
  | .ok a => some a
  | .error _ => none

/-- Whether a computation returned normally rather than raising. -/
def exceptIsOk {ε α : Type} : Except ε α → Bool
  | .ok _ => true
  | .error _ => false

/-- Python `sep.join(strings)`: concatenation with `sep` between
consecutive elements, empty string on the empty list. -/
def pyJoin (sep : String) : List String → String
  | [] => ""
  | [s] => s
  | s :: rest => s ++ sep ++ pyJoin sep rest

/-- `generate_summary` from `weather.py`: extract the per-day minimum
and maximum temperature columns, locate the overall max/min with
`find_max`/`find_min` (last-occurrence tie-break), look up the date at
each winning index, convert extremes and the two column means to
Celsius, and render the fixed five-line template.  `none` models any
propagated exception (in particular the unpacking failure on an empty
series). -/
def generate_summary (weather_data : List DayRecord) : Option String := do
  let min_temps := weather_data.map (fun day => PyVal.int day.min_temp)
  let max_temps := weather_data.map (fun day => PyVal.int day.max_temp)
  let maxPair ← exceptToOption (find_max max_temps)
  let (max_temp_value, max_value_index) ← maxPair
  let dayMax ← weather_data.get? max_value_index
  let max_temp_formatted_date ← convert_date dayMax.date
  let mean_max_temp ← exceptToOption (calculate_mean max_temps)
  let minPair ← exceptToOption (find_min min_temps)
  let (min_temp_value, min_value_index) ← minPair
  let dayMin ← weather_data.get? min_value_index
  let min_temp_formatted_date ← convert_date dayMin.date
  let mean_min_temp ← exceptToOption (calculate_mean min_temps)
  pure (natStr weather_data.length ++ " Day Overview\n" ++
    "  The lowest temperature will be " ++
      format_temperature (convert_f_to_c min_temp_value) ++
      ", and will occur on " ++ min_temp_formatted_date ++ ".\n" ++
    "  The highest temperature will be " ++
      format_temperature (convert_f_to_c max_temp_value) ++
      ", and will occur on " ++ max_temp_formatted_date ++ ".\n" ++
    "  The average low this week is " ++
      format_temperature (convert_f_to_c mean_min_temp) ++ ".\n" ++
    "  The average high this week is " ++
      format_temperature (convert_f_to_c mean_max_temp) ++ ".\n")

/-- One block of `generate_daily_summary`, for a single day. -/
def dayBlock (day : DayRecord) : Option String := do
  let formatted_date ← convert_date day.date
  pure ("---- " ++ formatted_date ++ " ----\n" ++
    "  Minimum Temperature: " ++
      format_temperature (convert_f_to_c day.min_temp) ++ "\n" ++
    "  Maximum Temperature: " ++
      format_temperature (convert_f_to_c day.max_temp) ++ "\n")

/-- The list of per-day blocks, failing if any date fails to parse. -/
def dayBlocks : List DayRecord → Option (List String)
  | [] => some []
  | day :: rest =>
      match dayBlock day, dayBlocks rest with
      | some b, some bs => some (b :: bs)
      | _, _ => none

/-- `generate_daily_summary` from `weather.py`: one block per record,
`"\n".join(blocks) + "\n"`. -/
def generate_daily_summary (weather_data : List DayRecord) : Option String := do
  let blocks ← dayBlocks weather_data
  pure (pyJoin "\n" blocks ++ "\n")

/-- Split a character list at commas (the CSV field separator). -/
def splitComma : List Char → List (List Char)
  | [] => [[]]
  | ',' :: rest => [] :: splitComma rest
  | c :: rest =>
      match splitComma rest with
      | [] => [[c]]
      | f :: r => (c :: f) :: r

/-- Field list of one CSV line. -/
def csvFields (line : String) : List String :=
  (splitComma line.toList).map (fun cs => String.mk cs)

/-- One data row through `csv.DictReader` plus
`[row['date'], int(row['min']), int(row['max'])]`: look up the three
required columns by name in the header and parse `min`/`max` as
integers; a missing column or unparseable integer is a `FormatError`. -/
def parseRow (header : List String) (line : String) : Except WeatherError DayRecord :=
  let dict := header.zip (csvFields line)
  match dict.lookup "date" with
  | none => .error .FormatError
  | some dateStr =>
    match dict.lookup "min" with
    | none => .error .FormatError
    | some minStr =>
      match parsePyInt minStr with
      | none => .error .FormatError
      | some minV =>
        match dict.lookup "max" with
        | none => .error .FormatError
        | some maxStr =>
          match parsePyInt maxStr with
          | none => .error .FormatError
          | some maxV => .ok ⟨dateStr, minV, maxV⟩

/-- Process the data rows in order, stopping at the first failure. -/
def loadRows (header : List String) : List String → Except WeatherError (List DayRecord)
  | [] => .ok []
  | line :: rest =>
      match parseRow header line with
      | .error e => .error e
      | .ok r =>
          match loadRows header rest with
          | .error e => .error e
          | .ok rs => .ok (r :: rs)

/-- `load_data_from_csv` from `weather.py`, applied to the lines of the
file: the first line is the header naming the columns; blank lines are
skipped (as `csv.DictReader` does); each remaining line becomes one
`DayRecord` in source order. -/
def load_data_from_csv (lines : List String) : Except WeatherError (List DayRecord) :=
  match lines with
  | [] => .ok []
  | headerLine :: rest =>
      loadRows (csvFields headerLine) (rest.filter (fun l => l ≠ ""))

/-! ### General lemmas about the statistics primitives -/

lemma foldl_min_mem {α : Type} [LinearOrder α] (t : List α) (a : α) :
    t.foldl min a ∈ a :: t := by
  induction t generalizing a with
  | nil => simp
  | cons b t ih =>
    simp only [List.foldl_cons]
    rcases List.mem_cons.mp (ih (min a b)) with h | h
    · rcases min_choice a b with h' | h'
      · exact List.mem_cons.mpr (Or.inl (h.trans h'))
      · exact List.mem_cons.mpr (Or.inr (List.mem_cons.mpr (Or.inl (h.trans h'))))
    · exact List.mem_cons.mpr (Or.inr (List.mem_cons.mpr (Or.inr h)))

lemma foldl_min_le {α : Type} [LinearOrder α] (t : List α) (a : α) :
    ∀ x ∈ a :: t, t.foldl min a ≤ x := by
  induction t generalizing a with
  | nil =>
      intro x hx
      rcases List.mem_cons.mp hx with rfl | h
      · exact le_refl _
      · exact absurd h (List.not_mem_nil x)
  | cons b t ih =>
      intro x hx
      simp only [List.foldl_cons]
      rcases List.mem_cons.mp hx with rfl | hx'
      · exact le_trans (ih (min x b) (min x b) (List.mem_cons_self _ _)) (min_le_left _ _)
      · rcases List.mem_cons.mp hx' with rfl | hx''
        · exact le_trans (ih (min a x) (min a x) (List.mem_cons_self _ _)) (min_le_right _ _)
        · exact ih (min a b) x (List.mem_cons.mpr (Or.inr hx''))

lemma foldl_max_mem {α : Type} [LinearOrder α] (t : List α) (a : α) :
    t.foldl max a ∈ a :: t := by
  induction t generalizing a with
  | nil => simp
  | cons b t ih =>
    simp only [List.foldl_cons]
    rcases List.mem_cons.mp (ih (max a b)) with h | h
    · rcases max_choice a b with h' | h'
      · exact List.mem_cons.mpr (Or.inl (h.trans h'))
      · exact List.mem_cons.mpr (Or.inr (List.mem_cons.mpr (Or.inl (h.trans h'))))
    · exact List.mem_cons.mpr (Or.inr (List.mem_cons.mpr (Or.inr h)))

lemma le_foldl_max {α : Type} [LinearOrder α] (t : List α) (a : α) :
    ∀ x ∈ a :: t, x ≤ t.foldl max a := by
  induction t generalizing a with
  | nil =>
      intro x hx
      rcases List.mem_cons.mp hx with rfl | h
      · exact le_refl _
      · exact absurd h (List.not_mem_nil x)
  | cons b t ih =>
      intro x hx
      simp only [List.foldl_cons]
      rcases List.mem_cons.mp hx with rfl | hx'
      · exact le_trans (le_max_left _ _) (ih (max x b) (max x b) (List.mem_cons_self _ _))
      · rcases List.mem_cons.mp hx' with rfl | hx''
        · exact le_trans (le_max_right _ _) (ih (max a x) (max a x) (List.mem_cons_self _ _))
        · exact ih (max a b) x (List.mem_cons.mpr (Or.inr hx''))

lemma mem_pyEnumFrom (n : ℕ) (l : List ℚ) (p : ℕ × ℚ) :
    p ∈ pyEnumFrom n l ↔ ∃ k, p.1 = n + k ∧ l.get? k = some p.2 := by
  induction l generalizing n with
  | nil => simp [pyEnumFrom]
  | cons q t ih =>
    simp only [pyEnumFrom, List.mem_cons, ih (n + 1)]
    constructor
    · rintro (rfl | ⟨k, hk1, hk2⟩)
      · exact ⟨0, by simp, by simp⟩
      · exact ⟨k + 1, by omega, by simpa using hk2⟩
    · rintro ⟨k, hk1, hk2⟩
      cases k with
      | zero =>
          left
          obtain ⟨i, x⟩ := p
          simp only [List.get?_cons_zero, Option.some.injEq] at hk2
          simp only at hk1
          simp [hk1, hk2]
      | succ k =>
          right
          exact ⟨k, by omega, by simpa using hk2⟩

lemma mem_idx (m : ℚ) (l : List ℚ) (j : ℕ) :
    j ∈ (((pyEnumFrom 0 l).filter (fun p => p.2 = m)).map Prod.fst) ↔
      l.get? j = some m := by
  simp only [List.mem_map, List.mem_filter, mem_pyEnumFrom, decide_eq_true_eq]
  constructor
  · rintro ⟨⟨i, x⟩, ⟨⟨k, hk1, hk2⟩, hx⟩, rfl⟩
    simp only at hk1 hk2 hx
    subst hx
    simpa [hk1] using hk2
  · intro h
    exact ⟨(j, m), ⟨⟨j, by omega, h⟩, rfl⟩, rfl⟩

lemma lastIndexOf_spec (l : List ℚ) (m : ℚ) (hm : ∃ j, l.get? j = some m) :
    l.get? (lastIndexOf l m) = some m ∧
      ∀ j, l.get? j = some m → j ≤ lastIndexOf l m := by
  obtain ⟨j0, hj0⟩ := hm
  have h0 : j0 ∈ (((pyEnumFrom 0 l).filter (fun p => p.2 = m)).map Prod.fst) :=
    (mem_idx m l j0).mpr hj0
  have hub : ∀ j, l.get? j = some m → j ≤ lastIndexOf l m := by
    intro j hj
    exact le_foldl_max _ 0 j
      (List.mem_cons.mpr (Or.inr ((mem_idx m l j).mpr hj)))
  refine ⟨?_, hub⟩
  rcases List.mem_cons.mp
      (foldl_max_mem (((pyEnumFrom 0 l).filter (fun p => p.2 = m)).map Prod.fst) 0) with h | h
  · have hj00 : j0 = 0 := Nat.le_zero.mp (h ▸ hub j0 hj0)
    have : lastIndexOf l m = j0 := by
      rw [lastIndexOf, h, hj00]
    rw [this]
    exact hj0
  · exact (mem_idx m l _).mp h

/-- If all elements coerce, `find_min` returns the minimum together with
the last index at which it occurs. -/
lemma find_min_ok (wd : List PyVal) (qs : List ℚ)
    (hc : coerceFloats wd = some qs) (h : qs ≠ []) :
    ∃ v i, find_min wd = .ok (some (v, i)) ∧ v ∈ qs ∧ (∀ x ∈ qs, v ≤ x) ∧
      qs.get? i = some v ∧ ∀ j, qs.get? j = some v → j ≤ i := by
  cases qs with
  | nil => exact absurd rfl h
  | cons q t =>
    have hex : ∃ j, (q :: t).get? j = some (t.foldl min q) :=
      List.get?_of_mem (foldl_min_mem t q)
    refine ⟨t.foldl min q, lastIndexOf (q :: t) (t.foldl min q), ?_, ?_, ?_, ?_, ?_⟩
    · simp [find_min, hc]
    · exact foldl_min_mem t q
    · exact foldl_min_le t q
    · exact (lastIndexOf_spec _ _ hex).1
    · exact (lastIndexOf_spec _ _ hex).2

/-- If all elements coerce, `find_max` returns the maximum together with
the last index at which it occurs. -/
lemma find_max_ok (wd : List PyVal) (qs : List ℚ)
    (hc : coerceFloats wd = some qs) (h : qs ≠ []) :
    ∃ v i, find_max wd = .ok (some (v, i)) ∧ v ∈ qs ∧ (∀ x ∈ qs, x ≤ v) ∧
      qs.get? i = some v ∧ ∀ j, qs.get? j = some v → j ≤ i := by
  cases qs with
  | nil => exact absurd rfl h
  | cons q t =>
    have hex : ∃ j, (q :: t).get? j = some (t.foldl max q) :=
      List.get?_of_mem (foldl_max_mem t q)
    refine ⟨t.foldl max q, lastIndexOf (q :: t) (t.foldl max q), ?_, ?_, ?_, ?_, ?_⟩
    · simp [find_max, hc]
    · exact foldl_max_mem t q
    · exact le_foldl_max t q
    · exact (lastIndexOf_spec _ _ hex).1
    · exact (lastIndexOf_spec _ _ hex).2

lemma coerceFloats_map_float (l : List ℚ) :
    coerceFloats (l.map PyVal.float) = some l := by
  induction l with
  | nil => rfl
  | cons q t ih => simp [coerceFloats, pyFloat, ih]

lemma coerceFloats_map_int (l : List ℤ) :
    coerceFloats (l.map PyVal.int) = some (l.map (Int.cast : ℤ → ℚ)) := by
  induction l with
  | nil => rfl
  | cons n t ih => simp [coerceFloats, pyFloat, ih]

lemma coerceFloats_none_of_bad (wd : List PyVal)
    (hbad : ∃ v ∈ wd, pyFloat v = none) : coerceFloats wd = none := by
  induction wd with
  | nil => simp at hbad
  | cons v t ih =>
    obtain ⟨w, hw, hwn⟩ := hbad
    rcases List.mem_cons.mp hw with rfl | hw'
    · simp [coerceFloats, hwn]
    · cases hpv : pyFloat v <;> simp [coerceFloats, hpv, ih ⟨w, hw', hwn⟩]

lemma calculate_mean_ok (wd : List PyVal) (qs : List ℚ)
    (hc : coerceFloats wd = some qs) (h : qs ≠ []) :
    ∃ q, calculate_mean wd = .ok q := by
  cases qs with
  | nil => exact absurd rfl h
  | cons a t =>
      refine ⟨pySum (a :: t) / (((a :: t).length : ℕ) : ℚ), ?_⟩
      simp [calculate_mean, hc]

/-! ### Rounding, date parsing and loader lemmas -/

lemma pyRoundInt_close (q : ℚ) : |(pyRoundInt q : ℚ) - q| ≤ 1 / 2 := by
  have h1 : ((⌊q⌋ : ℤ) : ℚ) ≤ q := Int.floor_le q
  have h2 : q < (⌊q⌋ : ℚ) + 1 := Int.lt_floor_add_one q
  unfold pyRoundInt
  split
  · next h => rw [abs_le]; constructor <;> linarith
  · split
    · next h h' => rw [abs_le]; push_cast; constructor <;> linarith
    · next h h' =>
        have heq : q - (⌊q⌋ : ℚ) = 1 / 2 := le_antisymm (not_lt.mp h') (not_lt.mp h)
        split
        · rw [abs_le]; constructor <;> linarith
        · rw [abs_le]; push_cast; constructor <;> linarith

lemma convert_f_to_c_close (v : ℚ) :
    |convert_f_to_c v - (v - 32) * 5 / 9| ≤ 1 / 20 := by
  unfold convert_f_to_c pyRound1
  have h := pyRoundInt_close ((v - 32) * 5 / 9 * 10)
  rw [abs_le] at h ⊢
  constructor <;> linarith

lemma parseIsoDate_valid (s : String) (d : PyDate) (h : parseIsoDate s = some d) :
    1 ≤ d.year ∧ 1 ≤ d.month ∧ d.month ≤ 12 ∧ 1 ≤ d.day ∧
      d.day ≤ daysInMonth d.year d.month := by
  unfold parseIsoDate at h
  split at h
  · split at h
    · dsimp only at h
      split at h
      · next hv =>
          injection h with h
          subst h
          exact ⟨hv.1, hv.2.1, hv.2.2.1, hv.2.2.2.1, hv.2.2.2.2⟩
      · exact absurd h (by simp)
    · exact absurd h (by simp)
  · exact absurd h (by simp)

lemma weekdayIndex_lt (d : PyDate) : weekdayIndex d < 7 :=
  Nat.mod_lt _ (by norm_num)

lemma parseRow_error_kind (header : List String) (line : String) (e : WeatherError)
    (h : parseRow header line = .error e) : e = .FormatError := by
  simp only [parseRow] at h
  split at h
  · injection h with h'; exact h'.symm
  · split at h
    · injection h with h'; exact h'.symm
    · split at h
      · injection h with h'; exact h'.symm
      · split at h
        · injection h with h'; exact h'.symm
        · split at h
          · injection h with h'; exact h'.symm
          · exact absurd h (by simp)

lemma loadRows_error_of_bad (header : List String) (rows : List String)
    (hbad : ∃ l ∈ rows, ∃ e, parseRow header l = .error e) :
    loadRows header rows = .error .FormatError := by
  induction rows with
  | nil => simp at hbad
  | cons l rest ih =>
    obtain ⟨l', hl', e, he⟩ := hbad
    rcases List.mem_cons.mp hl' with rfl | hmem
    · have hef : e = .FormatError := parseRow_error_kind _ _ _ he
      subst hef
      simp [loadRows, he]
    · cases hp : parseRow header l with
      | error e2 =>
          have hef : e2 = .FormatError := parseRow_error_kind _ _ _ hp
          subst hef
          simp [loadRows, hp]
      | ok r =>
          simp [loadRows, hp, ih ⟨l', hmem, e, he⟩]

lemma loadRows_ok_of_good (header : List String) (rows : List String)
    (hgood : ∀ l ∈ rows, ∃ r, parseRow header l = .ok r) :
    ∃ recs, loadRows header rows = .ok recs ∧ recs.length = rows.length ∧
      ∀ k l, rows.get? k = some l →
        ∃ r, recs.get? k = some r ∧ parseRow header l = .ok r := by
  induction rows with
  | nil =>
      refine ⟨[], rfl, rfl, ?_⟩
      intro k l h
      simp at h
  | cons l rest ih =>
    obtain ⟨r, hr⟩ := hgood l (List.mem_cons_self _ _)
    obtain ⟨recs, h1, h2, h3⟩ := ih (fun l' hl' => hgood l' (List.mem_cons.mpr (Or.inr hl')))
    refine ⟨r :: recs, ?_, by simp [h2], ?_⟩
    · simp [loadRows, hr, h1]
    · intro k l' hk
      cases k with
      | zero =>
          simp only [List.get?_cons_zero, Option.some.injEq] at hk
          subst hk
          exact ⟨r, by simp, hr⟩
      | succ k =>
          simp only [List.get?_cons_succ] at hk ⊢
          exact h3 k l' hk

/-! ### Summary-builder lemmas -/

lemma generate_summary_isSome (series : List DayRecord) (hne : series ≠ [])
    (hdates : ∀ r ∈ series, (convert_date r.date).isSome) :
    (generate_summary series).isSome := by
  have hcmax : coerceFloats (series.map (fun day => PyVal.int day.max_temp)) =
      some ((series.map (fun day => day.max_temp) : List ℤ).map (Int.cast : ℤ → ℚ)) := by
    rw [show series.map (fun day => PyVal.int day.max_temp) =
        (series.map (fun day => day.max_temp) : List ℤ).map PyVal.int from
      (List.map_map _ _ _).symm]
    exact coerceFloats_map_int _
  have hcmin : coerceFloats (series.map (fun day => PyVal.int day.min_temp)) =
      some ((series.map (fun day => day.min_temp) : List ℤ).map (Int.cast : ℤ → ℚ)) := by
    rw [show series.map (fun day => PyVal.int day.min_temp) =
        (series.map (fun day => day.min_temp) : List ℤ).map PyVal.int from
      (List.map_map _ _ _).symm]
    exact coerceFloats_map_int _
  have hlenmax :
      ((series.map (fun day => day.max_temp) : List ℤ).map (Int.cast : ℤ → ℚ)).length =
      series.length := by simp
  have hlenmin :
      ((series.map (fun day => day.min_temp) : List ℤ).map (Int.cast : ℤ → ℚ)).length =
      series.length := by simp
  have hsne : 0 < series.length := List.length_pos.mpr hne
  have hqnemax :
      ((series.map (fun day => day.max_temp) : List ℤ).map (Int.cast : ℤ → ℚ)) ≠ [] := by
    intro hcontra
    rw [← List.length_eq_zero, hlenmax] at hcontra
    omega
  have hqnemin :
      ((series.map (fun day => day.min_temp) : List ℤ).map (Int.cast : ℤ → ℚ)) ≠ [] := by
    intro hcontra
    rw [← List.length_eq_zero, hlenmin] at hcontra
    omega
  obtain ⟨vmax, imax, hfmax, _, _, hgetmax, _⟩ := find_max_ok _ _ hcmax hqnemax
  obtain ⟨vmin, imin, hfmin, _, _, hgetmin, _⟩ := find_min_ok _ _ hcmin hqnemin
  have himax : imax < series.length := by
    by_contra hcon
    rw [List.get?_eq_none.mpr (by rw [hlenmax]; omega)] at hgetmax
    exact Option.noConfusion hgetmax
  have himin : imin < series.length := by
    by_contra hcon
    rw [List.get?_eq_none.mpr (by rw [hlenmin]; omega)] at hgetmin
    exact Option.noConfusion hgetmin
  obtain ⟨dmax, hdmax⟩ : ∃ dr, series.get? imax = some dr :=
    ⟨series.get ⟨imax, himax⟩, List.get?_eq_get himax⟩
  obtain ⟨dmin, hdmin⟩ : ∃ dr, series.get? imin = some dr :=
    ⟨series.get ⟨imin, himin⟩, List.get?_eq_get himin⟩
  obtain ⟨smax, hsmax⟩ := Option.isSome_iff_exists.mp (hdates dmax (List.get?_mem hdmax))
  obtain ⟨smin, hsmin⟩ := Option.isSome_iff_exists.mp (hdates dmin (List.get?_mem hdmin))
  obtain ⟨mmax, hmmax⟩ := calculate_mean_ok _ _ hcmax hqnemax
  obtain ⟨mmin, hmmin⟩ := calculate_mean_ok _ _ hcmin hqnemin
  simp only [List.get?_eq_getElem?] at hdmax hdmin
  simp [generate_summary, exceptToOption, hfmax, hfmin, hdmax, hdmin, hsmax, hsmin,
    hmmax, hmmin]

lemma dayBlocks_struct (series : List DayRecord) (bs : List String)
    (h : dayBlocks series = some bs) :
    bs.length = series.length ∧
      ∀ k d, series.get? k = some d → ∃ b, bs.get? k = some b ∧ dayBlock d = some b := by
  induction series generalizing bs with
  | nil =>
      cases h
      refine ⟨rfl, ?_⟩
      intro k d hk
      simp at hk
  | cons day rest ih =>
      simp only [dayBlocks] at h
      cases hb : dayBlock day with
      | none => rw [hb] at h; exact absurd h (by simp)
      | some b =>
          rw [hb] at h
          cases hbs : dayBlocks rest with
          | none => rw [hbs] at h; exact absurd h (by simp)
          | some bs' =>
              rw [hbs] at h
              injection h with h
              subst h
              obtain ⟨h1, h2⟩ := ih bs' hbs
              refine ⟨by simp [h1], ?_⟩
              intro k d hk
              cases k with
              | zero =>
                  simp only [List.get?_cons_zero, Option.some.injEq] at hk
                  subst hk
                  exact ⟨b, by simp, hb⟩
              | succ k =>
                  simp only [List.get?_cons_succ] at hk ⊢
                  exact h2 k d hk

lemma generate_daily_summary_of_blocks (series : List DayRecord) (bs : List String)
    (h : dayBlocks series = some bs) :
    generate_daily_summary series = some (pyJoin "\n" bs ++ "\n") := by
  simp [generate_daily_summary, h]

/-! ### Claim theorems -/

/-- C1: for every non-empty list of numbers, `find_min` returns the pair
(minimum value, index) where the index is the last position at which the
minimum occurs, and `find_max` symmetrically returns the maximum with
the last position at which it occurs; in particular
`find_min [5, 2, 2, 9] = (2, 2)` and `find_max [5, 2, 9, 9] = (9, 3)`
with 0-based indices. -/
theorem find_extremes_last_occurrence :
    (∀ l : List ℚ, l ≠ [] →
      ∃ v i, find_min (l.map PyVal.float) = .ok (some (v, i)) ∧
        v ∈ l ∧ (∀ x ∈ l, v ≤ x) ∧ l.get? i = some v ∧
        ∀ j, l.get? j = some v → j ≤ i) ∧
    (∀ l : List ℚ, l ≠ [] →
      ∃ v i, find_max (l.map PyVal.float) = .ok (some (v, i)) ∧
        v ∈ l ∧ (∀ x ∈ l, x ≤ v) ∧ l.get? i = some v ∧
        ∀ j, l.get? j = some v → j ≤ i) ∧
    find_min [PyVal.int 5, PyVal.int 2, PyVal.int 2, PyVal.int 9] = .ok (some (2, 2)) ∧
    find_max [PyVal.int 5, PyVal.int 2, PyVal.int 9, PyVal.int 9] = .ok (some (9, 3)) := by
  refine ⟨?_, ?_, by decide, by decide⟩
  · intro l hl
    exact find_min_ok _ l (coerceFloats_map_float l) hl
  · intro l hl
    exact find_max_ok _ l (coerceFloats_map_float l) hl

theorem find_extremes_last_occurrence_witness :
    ∃ v i, find_min ([(5 : ℚ), 2, 2, 9].map PyVal.float) = .ok (some (v, i)) ∧
      v ∈ [(5 : ℚ), 2, 2, 9] ∧ (∀ x ∈ [(5 : ℚ), 2, 2, 9], v ≤ x) ∧
      [(5 : ℚ), 2, 2, 9].get? i = some v ∧
      ∀ j, [(5 : ℚ), 2, 2, 9].get? j = some v → j ≤ i :=
  find_extremes_last_occurrence.1 [5, 2, 2, 9] (by decide)

/-- C2: on a non-empty series with parseable dates `generate_summary`
succeeds, and on the series
`[["2021-07-06", 60, 80], ["2021-07-07", 55, 80]]` it reports lowest
12.8°C on the formatted 2021-07-07, highest 26.7°C with the tied 80°F
resolved to the last day 2021-07-07, and the two column means converted
to Celsius, in the fixed five-line template. -/
theorem generate_summary_report :
    generate_summary [⟨"2021-07-06", 60, 80⟩, ⟨"2021-07-07", 55, 80⟩] =
      some ("2 Day Overview\n" ++
        "  The lowest temperature will be 12.8°C, and will occur on Wednesday 07 July 2021.\n" ++
        "  The highest temperature will be 26.7°C, and will occur on Wednesday 07 July 2021.\n" ++
        "  The average low this week is 14.2°C.\n" ++
        "  The average high this week is 26.7°C.\n") ∧
    ∀ series : List DayRecord, series ≠ [] →
      (∀ r ∈ series, (convert_date r.date).isSome) →
      (generate_summary series).isSome := by
  refine ⟨?_, fun series h1 h2 => generate_summary_isSome series h1 h2⟩
  have h1 : find_max [PyVal.int 80, PyVal.int 80] = .ok (some ((80 : ℚ), 1)) := by decide
  have h2 : find_min [PyVal.int 60, PyVal.int 55] = .ok (some ((55 : ℚ), 1)) := by decide
  have h3 : calculate_mean [PyVal.int 80, PyVal.int 80] = .ok 80 := by
    norm_num [calculate_mean, coerceFloats, pyFloat, pySum]
  have h4 : calculate_mean [PyVal.int 60, PyVal.int 55] = .ok (115 / 2) := by
    norm_num [calculate_mean, coerceFloats, pyFloat, pySum]
  have c1 : convert_f_to_c 55 = 64 / 5 := by
    norm_num [convert_f_to_c, pyRound1, pyRoundInt]
  have c2 : convert_f_to_c 80 = 267 / 10 := by
    norm_num [convert_f_to_c, pyRound1, pyRoundInt]
  have c3 : convert_f_to_c (115 / 2) = 71 / 5 := by
    norm_num [convert_f_to_c, pyRound1, pyRoundInt]
  have f1 : format_temperature (64 / 5 : ℚ) = "12.8°C" := by
    have h : ⌊(64 / 5 : ℚ) * 10⌋ = 128 := by norm_num
    have hn : ¬((64 / 5 : ℚ) < 0) := by norm_num
    simp only [format_temperature, formatFloat1, if_neg hn, h]
    decide
  have f2 : format_temperature (267 / 10 : ℚ) = "26.7°C" := by
    have h : ⌊(267 / 10 : ℚ) * 10⌋ = 267 := by norm_num
    have hn : ¬((267 / 10 : ℚ) < 0) := by norm_num
    simp only [format_temperature, formatFloat1, if_neg hn, h]
    decide
  have f3 : format_temperature (71 / 5 : ℚ) = "14.2°C" := by
    have h : ⌊(71 / 5 : ℚ) * 10⌋ = 142 := by norm_num
    have hn : ¬((71 / 5 : ℚ) < 0) := by norm_num
    simp only [format_temperature, formatFloat1, if_neg hn, h]
    decide
  simp only [generate_summary, List.map, h1, h2, h3, h4]
  simp only [exceptToOption, Option.bind, bind, Option.some.injEq]
  rw [c1, c2, c3, f1, f2, f3]
  decide

theorem generate_summary_report_witness :
    (generate_summary [⟨"2021-07-06", 60, 80⟩]).isSome :=
  generate_summary_report.2 [⟨"2021-07-06", 60, 80⟩] (by decide) (by decide)

/-- C3: on the empty sequence `calculate_mean` fails with
`EmptyInputError`, whereas `find_min` and `find_max` do not fail but
return the empty sentinel; the two outcomes are distinct (one raises,
the others return normally). -/
theorem empty_input_outcomes :
    calculate_mean ([] : List PyVal) = .error .EmptyInputError ∧
    find_min ([] : List PyVal) = .ok none ∧
    find_max ([] : List PyVal) = .ok none ∧
    exceptIsOk (calculate_mean ([] : List PyVal)) = false ∧
    exceptIsOk (find_min ([] : List PyVal)) = true ∧
    exceptIsOk (find_max ([] : List PyVal)) = true := by
  decide

/-- C4: `generate_summary` applied to an empty series fails — the empty
sentinel from `find_min`/`find_max` cannot be unpacked into a
(value, index) pair — and no summary string is returned. -/
theorem generate_summary_empty_fails :
    generate_summary ([] : List DayRecord) = none := by
  decide

/-- C5 counterexample: on the empty series `generate_daily_summary` does
not return the empty string — `"\n".join([]) + "\n"` is the one-newline
string `"\n"`. -/
theorem generate_daily_summary_empty_not_empty_string :
    generate_daily_summary ([] : List DayRecord) ≠ some "" := by
  decide

/-- C5 (amended): `generate_daily_summary` emits one block per record in
order, blocks joined by one separator newline (each block already ends
in a newline, so consecutive blocks are separated by exactly one blank
line), with one extra trailing newline after the final block and no
leading blank line; a single-day series yields exactly one block plus
the trailing newline; the EMPTY series yields the single-newline string
`"\n"`, not the empty string. -/
theorem generate_daily_summary_blocks :
    (∀ (series : List DayRecord) (bs : List String), dayBlocks series = some bs →
      generate_daily_summary series = some (pyJoin "\n" bs ++ "\n") ∧
      bs.length = series.length ∧
      ∀ k d, series.get? k = some d → ∃ b, bs.get? k = some b ∧ dayBlock d = some b) ∧
    (∀ (d1 d2 : DayRecord) (b1 b2 : String), dayBlock d1 = some b1 →
      dayBlock d2 = some b2 →
      generate_daily_summary [d1, d2] = some (b1 ++ "\n" ++ b2 ++ "\n")) ∧
    generate_daily_summary [⟨"2021-07-06", 60, 80⟩] =
      some ("---- Tuesday 06 July 2021 ----\n" ++
        "  Minimum Temperature: 15.6°C\n" ++
        "  Maximum Temperature: 26.7°C\n" ++ "\n") ∧
    generate_daily_summary ([] : List DayRecord) = some "\n" := by
  refine ⟨?_, ?_, ?_, by decide⟩
  · intro series bs h
    obtain ⟨hlen, hblocks⟩ := dayBlocks_struct series bs h
    exact ⟨generate_daily_summary_of_blocks series bs h, hlen, hblocks⟩
  · intro d1 d2 b1 b2 h1 h2
    simp [generate_daily_summary, dayBlocks, h1, h2, pyJoin, String.append_assoc]
  · have hd : convert_date "2021-07-06" = some "Tuesday 06 July 2021" := by decide
    have c1 : convert_f_to_c ((60 : ℤ) : ℚ) = 78 / 5 := by
      norm_num [convert_f_to_c, pyRound1, pyRoundInt]
    have c2 : convert_f_to_c ((80 : ℤ) : ℚ) = 267 / 10 := by
      norm_num [convert_f_to_c, pyRound1, pyRoundInt]
    have f1 : format_temperature (78 / 5 : ℚ) = "15.6°C" := by
      have h : ⌊(78 / 5 : ℚ) * 10⌋ = 156 := by norm_num
      have hn : ¬((78 / 5 : ℚ) < 0) := by norm_num
      simp only [format_temperature, formatFloat1, if_neg hn, h]
      decide
    have f2 : format_temperature (267 / 10 : ℚ) = "26.7°C" := by
      have h : ⌊(267 / 10 : ℚ) * 10⌋ = 267 := by norm_num
      have hn : ¬((267 / 10 : ℚ) < 0) := by norm_num
      simp only [format_temperature, formatFloat1, if_neg hn, h]
      decide
    simp only [generate_daily_summary, dayBlocks, dayBlock, hd, c1, c2, f1, f2,
      Option.bind, bind, Option.some.injEq]
    decide

theorem generate_daily_summary_blocks_witness :
    generate_daily_summary ([] : List DayRecord) = some (pyJoin "\n" [] ++ "\n") ∧
    ([] : List String).length = ([] : List DayRecord).length ∧
    ∀ k d, ([] : List DayRecord).get? k = some d →
      ∃ b, ([] : List String).get? k = some b ∧ dayBlock d = some b :=
  generate_daily_summary_blocks.1 [] [] rfl

/-- C6: `convert_f_to_c` computes `(v - 32) * 5/9` rounded to one
decimal place (round-half-to-even, the default rounding of the source
language); the result is always an exact multiple of one tenth within
1/20 of the exact value, and `convert_f_to_c 32 = 0`,
`convert_f_to_c 212 = 100`, `convert_f_to_c 98.6 = 37`. -/
theorem convert_f_to_c_spec :
    convert_f_to_c 32 = 0 ∧ convert_f_to_c 212 = 100 ∧
    convert_f_to_c (493 / 5) = 37 ∧
    (∀ v : ℚ, convert_f_to_c v = pyRound1 ((v - 32) * 5 / 9)) ∧
    (∀ v : ℚ, ∃ k : ℤ, convert_f_to_c v = (k : ℚ) / 10) ∧
    (∀ v : ℚ, |convert_f_to_c v - (v - 32) * 5 / 9| ≤ 1 / 20) := by
  refine ⟨?_, ?_, ?_, fun v => rfl,
    fun v => ⟨pyRoundInt ((v - 32) * 5 / 9 * 10), rfl⟩, convert_f_to_c_close⟩
  · norm_num [convert_f_to_c, pyRound1, pyRoundInt]
  · norm_num [convert_f_to_c, pyRound1, pyRoundInt]
  · norm_num [convert_f_to_c, pyRound1, pyRoundInt]

/-- C7: `convert_date` renders every parseable calendar date in the
fixed format full-weekday-name, two-digit day, full month name,
four-digit year, with locale-independent English calendar names; in
particular `convert_date "2021-07-06" = "Tuesday 06 July 2021"`. -/
theorem convert_date_format :
    convert_date "2021-07-06" = some "Tuesday 06 July 2021" ∧
    ∀ s d, parseIsoDate s = some d →
      convert_date s = some (weekdayName (weekdayIndex d) ++ " " ++ pad2 d.day ++
        " " ++ monthName d.month ++ " " ++ pad4 d.year) ∧
      weekdayName (weekdayIndex d) ∈
        ["Monday", "Tuesday", "Wednesday", "Thursday", "Friday", "Saturday",
          "Sunday"] ∧
      monthName d.month ∈
        ["January", "February", "March", "April", "May", "June", "July",
          "August", "September", "October", "November", "December"] := by
  refine ⟨by decide, ?_⟩
  intro s d h
  obtain ⟨hy, hm1, hm2, hd1, hd2⟩ := parseIsoDate_valid s d h
  refine ⟨by simp [convert_date, h, strftimeAdBY], ?_, ?_⟩
  · have h7 : weekdayIndex d < 7 := weekdayIndex_lt d
    set w := weekdayIndex d with hw
    clear_value w
    interval_cases w <;> decide
  · set mo := d.month with hmo
    clear_value mo
    interval_cases mo <;> decide

theorem convert_date_format_witness :
    convert_date "2021-07-07" =
      some (weekdayName (weekdayIndex ⟨2021, 7, 7⟩) ++ " " ++
        pad2 (PyDate.mk 2021 7 7).day ++ " " ++
        monthName (PyDate.mk 2021 7 7).month ++ " " ++
        pad4 (PyDate.mk 2021 7 7).year) ∧
    weekdayName (weekdayIndex ⟨2021, 7, 7⟩) ∈
      ["Monday", "Tuesday", "Wednesday", "Thursday", "Friday", "Saturday",
        "Sunday"] ∧
    monthName (PyDate.mk 2021 7 7).month ∈
      ["January", "February", "March", "April", "May", "June", "July",
        "August", "September", "October", "November", "December"] :=
  convert_date_format.2 "2021-07-07" ⟨2021, 7, 7⟩ (by decide)

/-- C8: `load_data_from_csv` fails with a `FormatError` whenever a data
row is missing one of the required columns date/min/max or its min/max
value cannot be parsed as an integer; on well-formed input it returns
one record per data row, in source order, with blank lines skipped. -/
theorem load_data_from_csv_spec :
    load_data_from_csv ["date,min,max", "2021-07-06,60,80", "", "2021-07-07,55,80"] =
      .ok [⟨"2021-07-06", 60, 80⟩, ⟨"2021-07-07", 55, 80⟩] ∧
    load_data_from_csv ["date,max", "2021-07-06,80"] = .error .FormatError ∧
    load_data_from_csv ["date,min,max", "2021-07-06,6a,80"] = .error .FormatError ∧
    (∀ headerLine rows,
      (∃ l ∈ rows.filter (fun l => l ≠ ""), ∃ e,
        parseRow (csvFields headerLine) l = .error e) →
      load_data_from_csv (headerLine :: rows) = .error .FormatError) ∧
    (∀ headerLine rows,
      (∀ l ∈ rows.filter (fun l => l ≠ ""),
        ∃ r, parseRow (csvFields headerLine) l = .ok r) →
      ∃ recs, load_data_from_csv (headerLine :: rows) = .ok recs ∧
        recs.length = (rows.filter (fun l => l ≠ "")).length ∧
        ∀ k l, (rows.filter (fun l => l ≠ "")).get? k = some l →
          ∃ r, recs.get? k = some r ∧ parseRow (csvFields headerLine) l = .ok r) := by
  refine ⟨by decide, by decide, by decide, ?_, ?_⟩
  · intro headerLine rows hbad
    simpa [load_data_from_csv] using
      loadRows_error_of_bad (csvFields headerLine) (rows.filter (fun l => l ≠ "")) hbad
  · intro headerLine rows hgood
    obtain ⟨recs, hr1, hr2, hr3⟩ :=
      loadRows_ok_of_good (csvFields headerLine) (rows.filter (fun l => l ≠ "")) hgood
    exact ⟨recs, by simpa [load_data_from_csv] using hr1, hr2, hr3⟩

theorem load_data_from_csv_spec_witness :
    ∃ recs, load_data_from_csv ("date,min,max" :: []) = .ok recs ∧
      recs.length = (([] : List String).filter (fun l => l ≠ "")).length ∧
      ∀ k l, (([] : List String).filter (fun l => l ≠ "")).get? k = some l →
        ∃ r, recs.get? k = some r ∧ parseRow (csvFields "date,min,max") l = .ok r :=
  load_data_from_csv_spec.2.2.2.2 "date,min,max" []
    (by intro l hl; simp at hl)

/-- C9: every core function is pure and deterministic — two calls on
equal inputs return equal outputs, with no dependence on shared or
persisted state. -/
theorem core_functions_deterministic :
    ∀ (wd₁ wd₂ : List DayRecord) (l₁ l₂ : List PyVal) (s₁ s₂ : String)
      (q₁ q₂ : ℚ), wd₁ = wd₂ → l₁ = l₂ → s₁ = s₂ → q₁ = q₂ →
      generate_summary wd₁ = generate_summary wd₂ ∧
      generate_daily_summary wd₁ = generate_daily_summary wd₂ ∧
      convert_date s₁ = convert_date s₂ ∧
      convert_f_to_c q₁ = convert_f_to_c q₂ ∧
      calculate_mean l₁ = calculate_mean l₂ ∧
      find_min l₁ = find_min l₂ ∧
      find_max l₁ = find_max l₂ ∧
      format_temperature q₁ = format_temperature q₂ := by
  intro wd₁ wd₂ l₁ l₂ s₁ s₂ q₁ q₂ hwd hl hs hq
  subst hwd
  subst hl
  subst hs
  subst hq
  exact ⟨rfl, rfl, rfl, rfl, rfl, rfl, rfl, rfl⟩

theorem core_functions_deterministic_witness :
    generate_summary [] = generate_summary [] ∧
    generate_daily_summary [] = generate_daily_summary [] ∧
    convert_date "2021-07-06" = convert_date "2021-07-06" ∧
    convert_f_to_c 32 = convert_f_to_c 32 ∧
    calculate_mean [] = calculate_mean [] ∧
    find_min [] = find_min [] ∧
    find_max [] = find_max [] ∧
    format_temperature 32 = format_temperature 32 :=
  core_functions_deterministic [] [] [] [] "2021-07-06" "2021-07-06" 32 32
    rfl rfl rfl rfl

/-- C10: `calculate_mean`, `find_min` and `find_max` coerce every
element to float before computing, so numeric strings are accepted as
elements and true division is used for the mean; if any element is not
coercible to a number, all three fail on that element before any
empty-input check or sentinel applies. -/
theorem float_coercion_spec :
    (∀ wd : List PyVal, (∃ v ∈ wd, pyFloat v = none) →
      calculate_mean wd = .error .FormatError ∧
      find_min wd = .error .FormatError ∧
      find_max wd = .error .FormatError) ∧
    calculate_mean [PyVal.str "5"] = .ok 5 ∧
    find_min [PyVal.str "5", PyVal.int 3] = .ok (some (3, 1)) ∧
    find_max [PyVal.str "5", PyVal.int 3] = .ok (some (5, 0)) ∧
    calculate_mean [PyVal.int 1, PyVal.int 2] = .ok (3 / 2) ∧
    calculate_mean [PyVal.str "abc"] = .error .FormatError ∧
    find_min [PyVal.str "abc"] = .error .FormatError := by
  have h5 : parsePyFloat "5" = some 5 := by decide
  refine ⟨?_, ?_, by decide, by decide, ?_, by decide, by decide⟩
  · intro wd hbad
    have hc := coerceFloats_none_of_bad wd hbad
    exact ⟨by simp [calculate_mean, hc], by simp [find_min, hc],
      by simp [find_max, hc]⟩
  · norm_num [calculate_mean, coerceFloats, pyFloat, h5, pySum]
  · norm_num [calculate_mean, coerceFloats, pyFloat, pySum]

theorem float_coercion_spec_witness :
    calculate_mean [PyVal.str "oops", PyVal.int 3] = .error .FormatError ∧
    find_min [PyVal.str "oops", PyVal.int 3] = .error .FormatError ∧
    find_max [PyVal.str "oops", PyVal.int 3] = .error .FormatError :=
  float_coercion_spec.1 [PyVal.str "oops", PyVal.int 3]
    ⟨PyVal.str "oops", by decide, by decide⟩

end Weather
